import Mathlib

/-!
Verification development for the POV debugging/instrumentation library.

The definitions below are a shallow embedding of the library's core:
Python values, the `_POVObj` proxy wrapper and `sanitise`, the
`track_attr` registry and its installed `__setattr__` hook, the
`track` function wrapper, the `POVPrint.value` bounded pretty-printer,
the `view`/`check` front-end operations, the container-proxy mutators,
and the trace-buffer flush with its call-stack diffing.
Source files: `src/pov/_impl.py` (current iteration) and `src/pov.py`
(earlier iteration providing `POVDict`/`POVList`).
-/

mutual
/-- Embedding of the Python values the development manipulates:
`None`, ints, strings, exception instances, lists, and dicts.
The three types are mutually inductive so that every function on them
is structural (and hence kernel-reducible). -/
inductive PyVal where
  | pyNone
  | pyInt (n : Int)
  | pyStr (s : String)
  | exc (ty msg : String)
  | list (elts : PyValList)
  | dict (kvs : PyValPairs)

inductive PyValList where
  | nil
  | cons (head : PyVal) (tail : PyValList)

inductive PyValPairs where
  | nil
  | cons (key val : PyVal) (tail : PyValPairs)
end

deriving instance DecidableEq for PyVal, PyValList, PyValPairs

/-- An exception as caught by `except Exception as exc`: its type name and message. -/
structure PyExc where
  ty : String
  msg : String
deriving DecidableEq, Repr

/-- Length of an embedded Python list. -/
def PyValList.length : PyValList → Nat
  | .nil => 0
  | .cons _ t => t.length + 1

/-- Length of an embedded Python dict. -/
def PyValPairs.length : PyValPairs → Nat
  | .nil => 0
  | .cons _ _ t => t.length + 1

/-! ## Bounded pretty-printer (`POVPrint.value`, src/pov/_impl.py:664-779) -/

mutual
/-- Embeds `short_repr` inside `POVPrint.value`: `None`, numbers and types
are short; a string is short when its length is below 16; a container is
short when empty, or a singleton of short components; everything else
(including exception objects) is not short. -/
def shortRepr : PyVal → Bool
  | .pyNone => true
  | .pyInt _ => true
  | .pyStr s => decide (s.length < 16)
  | .exc _ _ => false
  | .list l => shortReprL l
  | .dict p => shortReprP p

/-- Embeds `short_repr` on the element list of a Python list. -/
def shortReprL : PyValList → Bool
  | .nil => true
  | .cons x .nil => shortRepr x
  | .cons _ (.cons _ _) => false

/-- Embeds `short_repr` on the item list of a Python dict. -/
def shortReprP : PyValPairs → Bool
  | .nil => true
  | .cons k v .nil => shortRepr k && shortRepr v
  | .cons _ _ (.cons _ _ _) => false
end

mutual
/-- Structural height of a value: 0 for scalars, one more than the
deepest component for containers. -/
def heightV : PyVal → Nat
  | .pyNone | .pyInt _ | .pyStr _ | .exc _ _ => 0
  | .list l => 1 + heightL l
  | .dict p => 1 + heightP p

/-- Height of the deepest element of a list. -/
def heightL : PyValList → Nat
  | .nil => 0
  | .cons x t => max (heightV x) (heightL t)

/-- Height of the deepest key or value of a dict. -/
def heightP : PyValPairs → Nat
  | .nil => 0
  | .cons k v t => max (max (heightV k) (heightV v)) (heightP t)
end

mutual
/-- Structured rendering produced by the pretty-printer: scalar tokens,
the opaque instance placeholder (covering both the `Type<id>` and the
`Type{repr}` forms), type-qualified empty brackets, and the two
recursive container renderings. Layout (inline versus indented) is a
purely textual concern and is not recorded. -/
inductive Render where
  | obj (s : String)
  | const (s : String)
  | instanceR (ty : String)
  | emptyCont (ty : String)
  | listR (elems : RenderList)
  | dictR (kvs : RenderPairs)

inductive RenderList where
  | nil
  | cons (r : Render) (rest : RenderList)

inductive RenderPairs where
  | nil
  | cons (k v : Render) (rest : RenderPairs)
end

mutual
/-- Nesting depth of a rendering: the number of compound levels the
printer actually descended into. -/
def renderDepth : Render → Nat
  | .obj _ | .const _ | .instanceR _ | .emptyCont _ => 0
  | .listR es => 1 + renderDepthL es
  | .dictR ps => 1 + renderDepthP ps

/-- Deepest rendering among list elements. -/
def renderDepthL : RenderList → Nat
  | .nil => 0
  | .cons r rest => max (renderDepth r) (renderDepthL rest)

/-- Deepest rendering among dict items. -/
def renderDepthP : RenderPairs → Nat
  | .nil => 0
  | .cons k v rest => max (max (renderDepth k) (renderDepth v)) (renderDepthP rest)
end

mutual
/-- Embeds `POVPrint.value(v, depthlimit, full)`.  Scalars render
directly; then the guard `depthlimit == 0 and not short_repr(v)`
renders the value as the opaque `POVPrint.instance` placeholder;
otherwise containers render their components at `depthlimit - 1`
(empty containers as type-qualified empty brackets, per the source's
`len(v) == 0` branches).  Exception objects fall to the generic
object branch and render opaquely. -/
def povValue : PyVal → Int → Render
  | .pyNone, _ => .obj "None"
  | .pyInt n, _ => .const (toString n)
  | .pyStr s, _ => .const s
  | .exc ty _, _ => .instanceR ty
  | .list l, d =>
    if d == 0 && !shortReprL l then .instanceR "list"
    else
      match l with
      | .nil => .emptyCont "list"
      | .cons x t => .listR (povValueL (.cons x t) (d - 1))
  | .dict p, d =>
    if d == 0 && !shortReprP p then .instanceR "dict"
    else
      match p with
      | .nil => .emptyCont "dict"
      | .cons k v t => .dictR (povValueP (.cons k v t) (d - 1))

/-- Renders each element of a list at the given remaining depth. -/
def povValueL : PyValList → Int → RenderList
  | .nil, _ => .nil
  | .cons x t, d => .cons (povValue x d) (povValueL t d)

/-- Renders each item of a dict at the given remaining depth. -/
def povValueP : PyValPairs → Int → RenderPairs
  | .nil, _ => .nil
  | .cons k v t, d => .cons (povValue k d) (povValue v d) (povValueP t d)
end

/-- Whether a value is compound (subject to the placeholder guard):
containers and objects, as opposed to directly rendered scalars. -/
def isCompound : PyVal → Bool
  | .list _ | .dict _ | .exc _ _ => true
  | .pyNone | .pyInt _ | .pyStr _ => false

/-- Type name used by the opaque placeholder for a compound value. -/
def placeholderTy : PyVal → String
  | .list _ => "list"
  | .dict _ => "dict"
  | .exc ty _ => ty
  | .pyNone => "NoneType"
  | .pyInt _ => "int"
  | .pyStr _ => "str"

mutual
/-- The largest height of a sub-value that has a short representation:
this is exactly how far the printer can descend past an exhausted
depth limit, since only short values bypass the placeholder guard. -/
def shortBound : PyVal → Nat
  | .pyNone | .pyInt _ | .pyStr _ | .exc _ _ => 0
  | .list l => max (if shortReprL l then 1 + heightL l else 0) (shortBoundL l)
  | .dict p => max (if shortReprP p then 1 + heightP p else 0) (shortBoundP p)

/-- Largest short-sub-value height among list elements. -/
def shortBoundL : PyValList → Nat
  | .nil => 0
  | .cons x t => max (shortBound x) (shortBoundL t)

/-- Largest short-sub-value height among dict items. -/
def shortBoundP : PyValPairs → Nat
  | .nil => 0
  | .cons k v t => max (max (shortBound k) (shortBound v)) (shortBoundP t)
end

/-! ## `_POVObj` proxy wrapper and `sanitise` (src/pov/_impl.py:862-1010) -/

/-- A Python object as it circulates through the tracking layer: either a
plain value or a `_POVObj` proxy carrying a wrapped target and the
display name `_pov_name`. -/
inductive PObj where
  | base (v : PyVal)
  | wrap (target : PObj) (name : String)
deriving DecidableEq

/-- Embeds `__is_pov_obj`: whether the object is a `_POVObj` proxy. -/
def isPovObj : PObj → Bool
  | .wrap _ _ => true
  | .base _ => false

/-- Embeds `sanitise` (src/pov/_impl.py:882-888): strips `_POVObj`
wrappers recursively. -/
def sanitise : PObj → PObj
  | .wrap t _ => sanitise t
  | .base v => .base v

/-- Embeds `_POVObj.__init__` (src/pov/_impl.py:920-924): the stored
`_pov_target` is `sanitise(target)`. -/
def POVObj_init (target : PObj) (name : String) : PObj :=
  .wrap (sanitise target) name

/-- Embeds `_POVObj._pov_set` restricted to the name update: renames an
existing proxy in place. -/
def pov_set_name : PObj → String → PObj
  | .wrap t _, n => .wrap t n
  | .base v, _ => .base v

/-- Embeds `intercept` (src/pov/_impl.py:864-877): an already wrapped
target is renamed and returned as is; anything else is wrapped by
`_POVObj.__init__`. -/
def intercept (target : PObj) (name : String) : PObj :=
  if isPovObj target then pov_set_name target name
  else POVObj_init target name

/-- No proxy directly wraps another proxy. -/
def noNestedWrap : PObj → Bool
  | .base _ => true
  | .wrap t _ => !isPovObj t

/-- Stripping wrappers never returns a proxy. -/
lemma isPovObj_sanitise (x : PObj) : isPovObj (sanitise x) = false := by
  induction x with
  | base v => rfl
  | wrap t _ ih => simpa [sanitise] using ih

/-- Stripping wrappers is idempotent. -/
lemma sanitise_sanitise (x : PObj) : sanitise (sanitise x) = sanitise x := by
  induction x with
  | base v => rfl
  | wrap t _ ih => simpa [sanitise] using ih

/-! ## Attribute tracking (`track_attr` and its hook, src/pov/_impl.py:292-337) -/

/-- A key of the per-class registry `_pov_attr_dict`: either the class
itself (attributes tracked for all instances) or a specific instance
identity. -/
inductive TrackKey where
  | cls
  | inst (id : Nat)
deriving DecidableEq

/-- A watched-attribute set: it may contain the sentinel `all` (the
built-in function) and attribute-name strings. -/
structure WatchSet where
  hasAll : Bool
  names : List String
deriving DecidableEq

/-- The empty watched set. -/
def WatchSet.empty : WatchSet := ⟨false, []⟩

/-- Embeds `attr_set.add(attr)` for a string attribute. -/
def WatchSet.addName (s : WatchSet) (a : String) : WatchSet :=
  { s with names := if s.names.contains a then s.names else s.names ++ [a] }

/-- Embeds `attr_set.add(all)` for the sentinel. -/
def WatchSet.addAll (s : WatchSet) : WatchSet :=
  { s with hasAll := true }

/-- Embeds `all in S or attr in S` for one registry entry. -/
def watchMatches (s : WatchSet) (attr : String) : Bool :=
  s.hasAll || s.names.contains attr

/-- Association-list lookup in the registry. -/
def regFind : List (TrackKey × WatchSet) → TrackKey → Option WatchSet
  | [], _ => Option.none
  | (k, s) :: t, key => if k = key then some s else regFind t key

/-- Embeds `cls._pov_attr_dict.get(key, {})`. -/
def regGetD (reg : List (TrackKey × WatchSet)) (key : TrackKey) : WatchSet :=
  (regFind reg key).getD WatchSet.empty

/-- Replaces (or appends) the entry of a key. -/
def regSet : List (TrackKey × WatchSet) → TrackKey → WatchSet → List (TrackKey × WatchSet)
  | [], key, s => [(key, s)]
  | (k, s') :: t, key, s => if k = key then (key, s) :: t else (k, s') :: regSet t key s

/-- The tracking state attached to one class: the target `obj` closed
over by the installed `__setattr__` hook (`none` while
`hasattr(cls, "_pov_attr_dict")` is false, i.e. before any
`track_attr` call), and the registry `_pov_attr_dict`. -/
structure AttrTrackState where
  hookObj : Option TrackKey
  reg : List (TrackKey × WatchSet)
deriving DecidableEq

/-- Embeds `POV.track_attr(obj, *attrs)` (src/pov/_impl.py:292-337) for
one class: the first call initialises `_pov_attr_dict` with
`{cls: set()}` and installs the hook closing over `obj`; every call
then runs `attr_set = cls._pov_attr_dict.setdefault(obj, set())`
followed by `attr_set.add(attr)` for each tracked attribute
(`hasAll` holds when the built-in `all` is among `attrs`). -/
def track_attr (st : AttrTrackState) (target : TrackKey) (attrs : List String)
    (hasAll : Bool) : AttrTrackState :=
  let st' :=
    if st.hookObj.isNone then
      { hookObj := some target, reg := [(TrackKey.cls, WatchSet.empty)] }
    else st
  let s0 := regGetD st'.reg target
  let s1 := attrs.foldl WatchSet.addName s0
  let s2 := if hasAll then s1.addAll else s1
  { st' with reg := regSet st'.reg target s2 }

/-- Embeds the guard of `_pov_new_setattr` (src/pov/_impl.py:318-322):
the assignment is traced when `all` or the attribute is in
`_pov_attr_dict[cls]`, or in `_pov_attr_dict.get(obj, {})` for the
closed-over hook target `obj`.  Note that the guard never consults
the instance being assigned to. -/
def pov_hook_traced (st : AttrTrackState) (attr : String) : Bool :=
  match st.hookObj with
  | Option.none => false
  | some obj =>
    watchMatches (regGetD st.reg TrackKey.cls) attr ||
      watchMatches (regGetD st.reg obj) attr

/-- The condition under which claim C2 says an assignment to instance
`self_` is traced, following the claim's words: the attribute (or
`all`) is registered for the class broadly / the all-instances entry
(both are the `cls` entry of the registry), or for the specific
instance identity being assigned to. -/
def specTracedCondition (st : AttrTrackState) (self_ : Nat) (attr : String) : Bool :=
  st.hookObj.isSome &&
    (watchMatches (regGetD st.reg TrackKey.cls) attr ||
      watchMatches (regGetD st.reg (TrackKey.inst self_)) attr)

/-- One line of trace output, tagged by the operation that produced it.
Values are carried structurally; their textual rendering is the
pretty-printer's concern. -/
inductive TraceLine where
  | info (s : String)
  | okMsg (s : String)
  | warnMsg (s : String)
  | badMsg (s : String)
  | titleLine (s : String)
  | okExpr (name : String) (v : PyVal)
  | warnExpr (name : String) (v : PyVal)
  | badExpr (name : String) (ty msg : String)
  | okVal (v : PyVal)
  | warnVal (v : PyVal)
  | attrAssign (key : TrackKey) (attr : String) (v : PObj)
  | callOpen (name : String)
  | argLine (v : PyVal)
  | kwargLine (k : String) (v : PyVal)
  | resultLine (v : PyVal)
  | excLine (e : PyExc)
deriving DecidableEq

/-- The display name `POVPrint.member(obj, attr)` attached to the proxy
substituted for a traced assignment. -/
def memberName (key : TrackKey) (attr : String) : String :=
  (match key with
   | TrackKey.cls => "cls"
   | TrackKey.inst n => "inst" ++ toString n) ++ "." ++ attr

/-- Stores an attribute in an instance dictionary (the original
`object.__setattr__` behaviour the hook delegates to). -/
def setAttrRaw : List (String × PObj) → String → PObj → List (String × PObj)
  | [], attr, v => [(attr, v)]
  | (a, w) :: t, attr, v =>
    if a = attr then (attr, v) :: t else (a, w) :: setAttrRaw t attr v

/-- Looks an attribute up in an instance dictionary. -/
def getAttrRaw : List (String × PObj) → String → Option PObj
  | [], _ => Option.none
  | (a, w) :: t, attr => if a = attr then some w else getAttrRaw t attr

/-- Embeds `_pov_new_setattr(self_, attr, value)`
(src/pov/_impl.py:316-331) acting on the attribute dictionary `m` of
the instance `self_`: when the guard matches, one `attr :=` trace
line is emitted (naming the closed-over hook target, not `self_`) and
the assigned value is replaced by `_POVObj(value, member(obj, attr))`;
either way the original assignment runs.  When no hook is installed
the class's plain `__setattr__` runs. -/
def pov_new_setattr (st : AttrTrackState) (_self_ : Nat) (m : List (String × PObj))
    (attr : String) (value : PObj) : List TraceLine × List (String × PObj) :=
  match st.hookObj with
  | Option.none => ([], setAttrRaw m attr value)
  | some obj =>
    if watchMatches (regGetD st.reg TrackKey.cls) attr ||
        watchMatches (regGetD st.reg obj) attr then
      ([TraceLine.attrAssign obj attr value],
        setAttrRaw m attr (POVObj_init value (memberName obj attr)))
    else ([], setAttrRaw m attr value)

/-! ## Call interception (`_pov_tracked_function`, src/pov/_impl.py:425-449) -/

/-- Appends one line to the open printer block, embedding
`printer.print` / `printer.append`. -/
def printerPush (lines : List TraceLine) (l : TraceLine) : List TraceLine :=
  lines ++ [l]

/-- Embeds `_pov_tracked_function(*args, **kwargs)` for a plain wrapped
callable (the `staticmethod` first-argument stripping and the optional
interactive session are not exercised here): one block is opened, the
call-name line and one line per positional and keyword argument are
printed, the target runs, and on success a result line is appended and
the result returned, while on an exception the exception line is
appended and the very same exception is re-raised. -/
def pov_tracked_function (target : List PyVal → List (String × PyVal) → Except PyExc PyVal)
    (name : String) (args : List PyVal) (kwargs : List (String × PyVal)) :
    List TraceLine × Except PyExc PyVal :=
  let p0 := printerPush [] (TraceLine.callOpen name)
  let p1 := args.foldl (fun p a => printerPush p (TraceLine.argLine a)) p0
  let p2 := kwargs.foldl (fun p kv => printerPush p (TraceLine.kwargLine kv.1 kv.2)) p1
  match target args kwargs with
  | Except.ok res => (printerPush p2 (TraceLine.resultLine res), Except.ok res)
  | Except.error exc => (printerPush p2 (TraceLine.excLine exc), Except.error exc)

/-! ## Container-proxy mutators (src/pov/_impl.py:999-1010, src/pov.py:630-746) -/

/-- Native CPython `list.__iadd__`: extends the list in place and
returns the list itself, so `lst += other` leaves `lst` bound to the
extended list.  Components: (new list state, Python return value). -/
def list_iadd (self other : List PyVal) : List PyVal × Option (List PyVal) :=
  (self ++ other, some (self ++ other))

/-- Embeds `_POVObj.__iadd__` (src/pov/_impl.py:999-1002) on a proxy
whose `_pov_target` is a list: one trace line is printed and
`self._pov_target += sanitise(other)` extends the target, but the
method body has no return statement, so it returns Python `None`.
Components: (trace-line count, new target state, Python return value). -/
def povObj_iadd (target other : List PyVal) : Nat × List PyVal × Option (List PyVal) :=
  (1, target ++ other, Option.none)

/-- Native CPython `dict.__delitem__` on a string-keyed dict: removes
the key or raises `KeyError`. -/
def dict_delitem (d : List (String × PyVal)) (key : String) :
    Except PyExc (List (String × PyVal)) :=
  match d with
  | [] => Except.error ⟨"KeyError", key⟩
  | (k, v) :: t =>
    if k = key then Except.ok t
    else
      match dict_delitem t key with
      | Except.ok t' => Except.ok ((k, v) :: t')
      | Except.error e => Except.error e

/-- The instance attributes a `POVDict` actually has, set by
`POVObj.__init__` (src/pov.py:610-616): `_file`, `_name`,
`_base_type`.  No attribute `cons` is ever defined on `POVDict`,
`POVObj`, or `dict`. -/
def povDictInstanceAttrs : List String := ["_file", "_name", "_base_type"]

/-- Attribute lookup on a `POVDict` instance: anything outside the
attributes set at construction (and the inherited methods, none of
which is named `cons`) raises `AttributeError`. -/
def povDict_getattr (attr : String) : Except PyExc Unit :=
  if povDictInstanceAttrs.contains attr then Except.ok ()
  else Except.error ⟨"AttributeError", attr⟩

/-- Embeds `POVDict.__delitem__` (src/pov.py:630-633): building the
trace line evaluates `self.cons.var(key)`, and the `self.cons` lookup
raises `AttributeError` before `dict.__delitem__` ever runs. -/
def POVDict_delitem (d : List (String × PyVal)) (key : String) :
    Except PyExc (List (String × PyVal)) :=
  match povDict_getattr "cons" with
  | Except.error e => Except.error e
  | Except.ok _ => dict_delitem d key

/-- Native CPython `list.pop(index)` restricted to the default
`index = -1` used below: returns the last element and the shortened
list, or raises `IndexError` on an empty list. -/
def list_pop_last (self : List PyVal) : Except PyExc (PyVal × List PyVal) :=
  match self with
  | [] => Except.error ⟨"IndexError", "pop from empty list"⟩
  | x :: t =>
    match list_pop_last t with
    | Except.ok (v, t') => Except.ok (v, x :: t')
    | Except.error _ => Except.ok (x, [])

/-- Embeds `POVList.pop` (src/pov.py:742-746) at the default index:
`value = list.pop(self, index)` runs first, one trace line is printed,
and the popped value is returned unchanged.  Components on success:
(trace-line count, popped value, new list state). -/
def POVList_pop (self : List PyVal) : Except PyExc (Nat × PyVal × List PyVal) :=
  match list_pop_last self with
  | Except.ok (v, t) => Except.ok (1, v, t)
  | Except.error e => Except.error e

/-! ## `view` and `check` (src/pov/_impl.py:153-263) -/

/-- One argument of `view` or `check`: an expression string evaluated in
the caller's context, or a literal value passed directly. -/
inductive ViewArg where
  | exprA (s : String)
  | valA (v : PyVal)
deriving DecidableEq

/-- Embeds `try: val = eval(expr, self._context) except Exception as
exc: val = exc`: evaluation is abstracted by a function from
expression text to a result, and a raised exception becomes the
exception object itself. -/
def tryEvalView (ev : String → Except PyExc PyVal) (s : String) : PyVal :=
  match ev s with
  | Except.ok v => v
  | Except.error e => PyVal.exc e.ty e.msg

/-- Embeds `isinstance(val, Exception)`. -/
def isExcVal : PyVal → Bool
  | .exc _ _ => true
  | _ => false

/-- The display name `get_name(expr)` used by `view`: the expression
text for strings, a dollar sign for literal values. -/
def viewName : ViewArg → String
  | .exprA s => s
  | .valA _ => "$"

/-- The single line `view` appends for one argument
(src/pov/_impl.py:174-186): a failure line with the exception's type
and message when the (evaluated) value is an exception, an ok line
with the value otherwise. -/
def viewLine (ev : String → Except PyExc PyVal) (a : ViewArg) : TraceLine :=
  match
    (match a with
     | ViewArg.valA v => v
     | ViewArg.exprA s => tryEvalView ev s) with
  | PyVal.exc ty msg => TraceLine.badExpr (viewName a) ty msg
  | v => TraceLine.okExpr (viewName a) v

/-- Embeds `POV.view` (src/pov/_impl.py:153-188): an optional title
line followed by exactly one line per argument; every evaluation
failure is caught inside the loop, so the function always returns
(its Python return value is `self`). -/
def POV_view (ev : String → Except PyExc PyVal) (title : Option String)
    (args : List ViewArg) : List TraceLine :=
  (match title with
   | some t => [TraceLine.titleLine t]
   | Option.none => []) ++ args.map (viewLine ev)

/-- Python truthiness of an embedded value: `None`, zero, the empty
string and empty containers are falsy. -/
def pyTruthy : PyVal → Bool
  | .pyNone => false
  | .pyInt n => decide (n ≠ 0)
  | .pyStr s => !s.isEmpty
  | .exc _ _ => true
  | .list PyValList.nil => false
  | .list (PyValList.cons _ _) => true
  | .dict PyValPairs.nil => false
  | .dict (PyValPairs.cons _ _ _) => true

/-- Process outcome of an operation that may call `exit`. -/
inductive CheckOutcome where
  | normal
  | exited (code : Int)
deriving DecidableEq

/-- One iteration of the `check` loop (src/pov/_impl.py:231-251):
threads the `all_true` flag and appends the ok / warn / bad line for
the argument. -/
def checkStep (ev : String → Except PyExc PyVal) (acc : Bool × List TraceLine)
    (a : ViewArg) : Bool × List TraceLine :=
  match a with
  | ViewArg.valA v =>
    if !pyTruthy v then (false, acc.2 ++ [TraceLine.warnVal v])
    else (acc.1, acc.2 ++ [TraceLine.okVal v])
  | ViewArg.exprA s =>
    match ev s with
    | Except.ok v =>
      if !pyTruthy v then (false, acc.2 ++ [TraceLine.warnExpr s v])
      else (acc.1, acc.2 ++ [TraceLine.okExpr s v])
    | Except.error e => (false, acc.2 ++ [TraceLine.badExpr s e.ty e.msg])

/-- Whether one `check` argument counts as passing: it evaluates (or
casts) to a truthy value, and a raised evaluation failure counts as
not passing. -/
def checkTruthy (ev : String → Except PyExc PyVal) : ViewArg → Bool
  | ViewArg.valA v => pyTruthy v
  | ViewArg.exprA s =>
    match ev s with
    | Except.ok v => pyTruthy v
    | Except.error _ => false

/-- Embeds `POV.check` (src/pov/_impl.py:221-263) with
`interact_on_failure` left at its default: the header line, one line
per argument, and when some assertion failed a warning line followed
— under `exit_on_failure` — by the exit message and `exit(1)`. -/
def POV_check (ev : String → Except PyExc PyVal) (exprs : List ViewArg)
    (exit_on_failure : Bool) : List TraceLine × CheckOutcome :=
  let r := exprs.foldl (checkStep ev) (true, [TraceLine.info "Assertions:"])
  if !r.1 then
    let lines := r.2 ++ [TraceLine.warnMsg "Some assertions failed."]
    if exit_on_failure then
      (lines ++ [TraceLine.badMsg "Exiting due to failed assertions..."],
        CheckOutcome.exited 1)
    else (lines, CheckOutcome.normal)
  else (r.2 ++ [TraceLine.okMsg "All checks passed."], CheckOutcome.normal)

/-! ## Trace-buffer flush and call-stack diffing (src/pov/_impl.py:519-564) -/

/-- One captured call frame, with the components `FrameInfo` equality
compares in the diff loop. -/
structure Frame where
  filename : String
  lineno : Nat
  function : String
deriving DecidableEq

/-- Fallback frame for the (never exercised) out-of-range index read. -/
instance : Inhabited Frame := ⟨⟨"", 0, ""⟩⟩

/-- One stack-context line emitted during a flush: the `<new stack>`
marker, an `<up N>` retreat marker (printed together with the deepest
shared frame), or one rendered frame. -/
inductive PathLine where
  | newStack
  | up (f : Frame) (n : Nat)
  | frameLine (f : Frame)
deriving DecidableEq

/-- Length of the common prefix of two stacks, outermost frame first:
the `while` loop of `POV.Printer.__exit__` (src/pov/_impl.py:544-548). -/
def commonPrefixLen : List Frame → List Frame → Nat
  | a :: as_, b :: bs => if a = b then commonPrefixLen as_ bs + 1 else 0
  | _, _ => 0

/-- The stack-context lines one flushed block emits
(src/pov/_impl.py:549-557), given the process-wide previously rendered
stack: with some common prefix, an `<up N>` line only when the
previous stack was strictly longer; with no common prefix, the
`<new stack>` line; then every frame past the common prefix. -/
def stackDiffLines (prev stack : List Frame) : List PathLine :=
  let i := commonPrefixLen prev stack
  (if 0 < i then
     if i < prev.length then [PathLine.up (stack.getD (i - 1) default) (prev.length - i)]
     else []
   else [PathLine.newStack]) ++ (stack.drop i).map PathLine.frameLine

/-- A line written to the output stream: stack context or block content. -/
inductive OutLine where
  | path (p : PathLine)
  | content (t : TraceLine)
deriving DecidableEq

/-- One flushed entry of `stacked_lines`: the captured stack (outermost
frame first, i.e. already reversed as in `__exit__`) and the lines the
block accumulated. -/
structure BlockEntry where
  stack : List Frame
  lines : List TraceLine
deriving DecidableEq

/-- Flushing one entry (src/pov/_impl.py:540-562): an entry with no
lines is skipped entirely — the `continue` fires before any output and
before the previous-stack update; otherwise the stack-diff lines are
written, then the content lines, and the process-wide previous stack
becomes this entry's stack. -/
def flushOne (prev : List Frame) (b : BlockEntry) : List OutLine × List Frame :=
  if b.lines.isEmpty then ([], prev)
  else
    ((stackDiffLines prev b.stack).map OutLine.path ++ b.lines.map OutLine.content,
      b.stack)

/-- Flushing every queued entry in order, threading the previous-stack
state. -/
def flushAll (prev : List Frame) : List BlockEntry → List OutLine × List Frame
  | [] => ([], prev)
  | b :: bs =>
    let r := flushOne prev b
    let rs := flushAll r.2 bs
    (r.1 ++ rs.1, rs.2)

/-- The stack-context lines among a flush's output. -/
def pathPart (outs : List OutLine) : List PathLine :=
  outs.filterMap fun o =>
    match o with
    | OutLine.path p => some p
    | OutLine.content _ => Option.none

/-! ## Helper lemmas -/

/-- Storing an attribute makes it the one retrieved afterwards. -/
lemma getAttrRaw_setAttrRaw (m : List (String × PObj)) (attr : String) (w : PObj) :
    getAttrRaw (setAttrRaw m attr w) attr = some w := by
  induction m with
  | nil => simp [setAttrRaw, getAttrRaw]
  | cons h t ih =>
    obtain ⟨a, x⟩ := h
    by_cases hh : a = attr
    · simp [setAttrRaw, getAttrRaw, hh]
    · simp [setAttrRaw, getAttrRaw, hh, ih]

/-- Folding the printer's argument-line push over the positional
arguments appends one line per argument. -/
lemma foldl_argLines (args : List PyVal) (init : List TraceLine) :
    args.foldl (fun p a => printerPush p (TraceLine.argLine a)) init =
      init ++ args.map TraceLine.argLine := by
  induction args generalizing init with
  | nil => simp
  | cons x t ih => rw [List.foldl_cons, ih]; simp [printerPush]

/-- Folding the printer's keyword-line push over the keyword arguments
appends one line per keyword argument. -/
lemma foldl_kwargLines (kwargs : List (String × PyVal)) (init : List TraceLine) :
    kwargs.foldl (fun p kv => printerPush p (TraceLine.kwargLine kv.1 kv.2)) init =
      init ++ kwargs.map (fun kv => TraceLine.kwargLine kv.1 kv.2) := by
  induction kwargs generalizing init with
  | nil => simp
  | cons x t ih => rw [List.foldl_cons, ih]; simp [printerPush]

/-! ## C1: container-proxy mutators versus the native container -/

/-- C1: the proxies' mutating operations do not all return the native
operation's value.  At the concrete input `[1] += [2]`, the native
`list.__iadd__` returns the extended list while `_POVObj.__iadd__`
(which has no return statement) returns `None`, so the augmented
assignment rebinds the proxy variable to `None`; and
`POVDict.__delitem__` raises `AttributeError` on its dangling
`self.cons` reference before deleting, where the native delete
succeeds.  (`POVList.pop` does agree with the native `pop`.) -/
theorem povObj_iadd_diverges_from_native :
    povObj_iadd [PyVal.pyInt 1] [PyVal.pyInt 2] =
      (1, [PyVal.pyInt 1, PyVal.pyInt 2], Option.none) ∧
    list_iadd [PyVal.pyInt 1] [PyVal.pyInt 2] =
      ([PyVal.pyInt 1, PyVal.pyInt 2], some [PyVal.pyInt 1, PyVal.pyInt 2]) ∧
    POVDict_delitem [("k", PyVal.pyInt 3)] "k" =
      Except.error ⟨"AttributeError", "cons"⟩ ∧
    dict_delitem [("k", PyVal.pyInt 3)] "k" = Except.ok [] ∧
    POVList_pop [PyVal.pyInt 7] = Except.ok (1, PyVal.pyInt 7, []) :=
  ⟨rfl, rfl, rfl, rfl, rfl⟩

/-! ## C2: which assignments the `track_attr` hook traces -/

/-- C2: after `track_attr(o1, "x")` on instance `o1` (identity 1) of a
previously untracked class, an assignment of attribute `x` on a
different instance `o2` (identity 2) is traced — the hook emits one
line, and the line even names `o1` — although `x` is registered
neither for the class entry nor for `o2`, so the claim's condition for
this assignment is false.  The hook's guard consults the closed-over
hook-installing target instead of the instance being assigned to. -/
theorem track_attr_hook_ignores_assigned_instance :
    pov_hook_traced
        (track_attr ⟨Option.none, []⟩ (TrackKey.inst 1) ["x"] false) "x" = true ∧
    specTracedCondition
        (track_attr ⟨Option.none, []⟩ (TrackKey.inst 1) ["x"] false) 2 "x" = false ∧
    (pov_new_setattr (track_attr ⟨Option.none, []⟩ (TrackKey.inst 1) ["x"] false)
        2 [] "x" (PObj.base (PyVal.pyInt 5))).1 =
      [TraceLine.attrAssign (TrackKey.inst 1) "x" (PObj.base (PyVal.pyInt 5))] := by
  refine ⟨by decide, by decide, by decide⟩

/-! ## C3: the hook always performs the assignment with an equal value -/

/-- C3: whatever the tracking state and whether or not the assignment is
traced, the hook delegates to the original assignment: afterwards the
attribute is bound, and the bound object equals the assigned value in
the sense of `_POVObj.__eq__` (which compares sanitised targets, so a
substituted proxy compares equal to the raw value it wraps). -/
theorem pov_new_setattr_stores_equal_value (st : AttrTrackState) (self_ : Nat)
    (m : List (String × PObj)) (attr : String) (v : PObj) :
    ∃ stored,
      getAttrRaw (pov_new_setattr st self_ m attr v).2 attr = some stored ∧
        sanitise stored = sanitise v := by
  match hst : st.hookObj with
  | Option.none =>
    exact ⟨v, by simp [pov_new_setattr, hst, getAttrRaw_setAttrRaw], rfl⟩
  | some obj =>
    by_cases hg : (watchMatches (regGetD st.reg TrackKey.cls) attr ||
        watchMatches (regGetD st.reg obj) attr) = true
    · refine ⟨POVObj_init v (memberName obj attr), ?_, ?_⟩
      · simp [pov_new_setattr, hst, hg, getAttrRaw_setAttrRaw]
      · simp [POVObj_init, sanitise, sanitise_sanitise]
    · refine ⟨v, ?_, rfl⟩
      simp only [Bool.not_eq_true] at hg
      simp [pov_new_setattr, hst, hg, getAttrRaw_setAttrRaw]

/-! ## C4: the tracked-function wrapper's block and transparency -/

/-- C4: one invocation of the wrapper produces exactly one block holding
the call line, one line per positional argument, one line per keyword
argument, and then either a result line rendering the returned value
or an exception line; and the wrapper's outcome is exactly the wrapped
callable's outcome — the same value is returned and the same exception
object propagates. -/
theorem pov_tracked_function_block_and_transparency
    (target : List PyVal → List (String × PyVal) → Except PyExc PyVal)
    (name : String) (args : List PyVal) (kwargs : List (String × PyVal)) :
    (pov_tracked_function target name args kwargs).2 = target args kwargs ∧
    (pov_tracked_function target name args kwargs).1 =
      TraceLine.callOpen name ::
        (args.map TraceLine.argLine ++
          kwargs.map (fun kv => TraceLine.kwargLine kv.1 kv.2) ++
          [match target args kwargs with
           | Except.ok res => TraceLine.resultLine res
           | Except.error e => TraceLine.excLine e]) := by
  simp only [pov_tracked_function]
  rw [foldl_argLines, foldl_kwargLines]
  cases h : target args kwargs <;> simp [h, printerPush]

/-! ## C5: depth-limited rendering -/

/-- Unfolds `povValue` on a nonempty list. -/
lemma povValue_list_cons (x : PyVal) (t : PyValList) (d : Int) :
    povValue (PyVal.list (PyValList.cons x t)) d =
      if d == 0 && !shortReprL (PyValList.cons x t) then Render.instanceR "list"
      else Render.listR (povValueL (PyValList.cons x t) (d - 1)) := rfl

/-- Unfolds `povValue` on the empty list. -/
lemma povValue_list_nil (d : Int) :
    povValue (PyVal.list PyValList.nil) d =
      if d == 0 && !shortReprL PyValList.nil then Render.instanceR "list"
      else Render.emptyCont "list" := rfl

/-- Unfolds `povValue` on a nonempty dict. -/
lemma povValue_dict_cons (k w : PyVal) (t : PyValPairs) (d : Int) :
    povValue (PyVal.dict (PyValPairs.cons k w t)) d =
      if d == 0 && !shortReprP (PyValPairs.cons k w t) then Render.instanceR "dict"
      else Render.dictR (povValueP (PyValPairs.cons k w t) (d - 1)) := rfl

/-- Unfolds `povValue` on the empty dict. -/
lemma povValue_dict_nil (d : Int) :
    povValue (PyVal.dict PyValPairs.nil) d =
      if d == 0 && !shortReprP PyValPairs.nil then Render.instanceR "dict"
      else Render.emptyCont "dict" := rfl

mutual
/-- The printer never descends deeper than the value's own structure. -/
lemma renderDepth_le_height (v : PyVal) (d : Int) :
    renderDepth (povValue v d) ≤ heightV v := by
  cases v with
  | pyNone => simp [povValue, renderDepth, heightV]
  | pyInt n => simp [povValue, renderDepth, heightV]
  | pyStr s => simp [povValue, renderDepth, heightV]
  | exc ty m => simp [povValue, renderDepth, heightV]
  | list l =>
    cases l with
    | nil => rw [povValue_list_nil]; split <;> simp [renderDepth, heightV]
    | cons x t =>
      rw [povValue_list_cons]
      split
      · simp [renderDepth, heightV]
      · simp only [renderDepth, heightV]
        have := renderDepthL_le_height (PyValList.cons x t) (d - 1)
        omega
  | dict p =>
    cases p with
    | nil => rw [povValue_dict_nil]; split <;> simp [renderDepth, heightV]
    | cons k w t =>
      rw [povValue_dict_cons]
      split
      · simp [renderDepth, heightV]
      · simp only [renderDepth, heightV]
        have := renderDepthP_le_height (PyValPairs.cons k w t) (d - 1)
        omega
termination_by sizeOf v

/-- Elementwise version of `renderDepth_le_height` for lists. -/
lemma renderDepthL_le_height (l : PyValList) (d : Int) :
    renderDepthL (povValueL l d) ≤ heightL l := by
  cases l with
  | nil => simp [povValueL, renderDepthL, heightL]
  | cons x t =>
    simp only [povValueL, renderDepthL, heightL]
    exact max_le_max (renderDepth_le_height x d) (renderDepthL_le_height t d)
termination_by sizeOf l

/-- Itemwise version of `renderDepth_le_height` for dicts. -/
lemma renderDepthP_le_height (p : PyValPairs) (d : Int) :
    renderDepthP (povValueP p d) ≤ heightP p := by
  cases p with
  | nil => simp [povValueP, renderDepthP, heightP]
  | cons k w t =>
    simp only [povValueP, renderDepthP, heightP]
    exact max_le_max (max_le_max (renderDepth_le_height k d) (renderDepth_le_height w d))
      (renderDepthP_le_height t d)
termination_by sizeOf p
end

/-- The height of a short value is accounted for in its short bound. -/
lemma height_le_shortBound (v : PyVal) (h : shortRepr v = true) :
    heightV v ≤ shortBound v := by
  cases v with
  | pyNone => simp [heightV, shortBound]
  | pyInt n => simp [heightV, shortBound]
  | pyStr s => simp [heightV, shortBound]
  | exc ty m => simp [shortRepr] at h
  | list l =>
    have hl : shortReprL l = true := by simpa [shortRepr] using h
    simp only [heightV, shortBound, hl, if_true]
    exact Nat.le_max_left _ _
  | dict p =>
    have hp : shortReprP p = true := by simpa [shortRepr] using h
    simp only [heightV, shortBound, hp, if_true]
    exact Nat.le_max_left _ _

mutual
/-- With a non-negative depth limit, rendering descends at most `d`
levels plus the height of a short-representation chain: only short
values bypass the exhausted-limit placeholder guard. -/
lemma renderDepth_le_shortBound (v : PyVal) (d : Int) (hd : 0 ≤ d) :
    renderDepth (povValue v d) ≤ d.toNat + shortBound v := by
  cases v with
  | pyNone => simp [povValue, renderDepth]
  | pyInt n => simp [povValue, renderDepth]
  | pyStr s => simp [povValue, renderDepth]
  | exc ty m => simp [povValue, renderDepth, shortBound]
  | list l =>
    cases hs : shortReprL l with
    | true =>
      have h1 := renderDepth_le_height (PyVal.list l) d
      have h2 := height_le_shortBound (PyVal.list l) (by simp [shortRepr, hs])
      omega
    | false =>
      cases l with
      | nil => simp [shortReprL] at hs
      | cons x t =>
        rw [povValue_list_cons]
        by_cases h0 : d = 0
        · subst h0
          simp [hs, renderDepth]
        · have hg : (d == 0 && !shortReprL (PyValList.cons x t)) = false := by
            simp [hs, h0]
          simp only [hg, Bool.false_eq_true, if_false, renderDepth]
          have hrec := renderDepthL_le_shortBound (PyValList.cons x t) (d - 1) (by omega)
          have hsb : shortBoundL (PyValList.cons x t) ≤
              shortBound (PyVal.list (PyValList.cons x t)) := by
            simp only [shortBound]
            exact Nat.le_max_right _ _
          omega
  | dict p =>
    cases hs : shortReprP p with
    | true =>
      have h1 := renderDepth_le_height (PyVal.dict p) d
      have h2 := height_le_shortBound (PyVal.dict p) (by simp [shortRepr, hs])
      omega
    | false =>
      cases p with
      | nil => simp [shortReprP] at hs
      | cons k w t =>
        rw [povValue_dict_cons]
        by_cases h0 : d = 0
        · subst h0
          simp [hs, renderDepth]
        · have hg : (d == 0 && !shortReprP (PyValPairs.cons k w t)) = false := by
            simp [hs, h0]
          simp only [hg, Bool.false_eq_true, if_false, renderDepth]
          have hrec := renderDepthP_le_shortBound (PyValPairs.cons k w t) (d - 1) (by omega)
          have hsb : shortBoundP (PyValPairs.cons k w t) ≤
              shortBound (PyVal.dict (PyValPairs.cons k w t)) := by
            simp only [shortBound]
            exact Nat.le_max_right _ _
          omega
termination_by sizeOf v

/-- Elementwise version of `renderDepth_le_shortBound` for lists. -/
lemma renderDepthL_le_shortBound (l : PyValList) (d : Int) (hd : 0 ≤ d) :
    renderDepthL (povValueL l d) ≤ d.toNat + shortBoundL l := by
  cases l with
  | nil => simp [povValueL, renderDepthL]
  | cons x t =>
    simp only [povValueL, renderDepthL, shortBoundL]
    have h1 := renderDepth_le_shortBound x d hd
    have h2 := renderDepthL_le_shortBound t d hd
    refine max_le ?_ ?_
    · exact le_trans h1 (Nat.add_le_add_left (Nat.le_max_left _ _) _)
    · exact le_trans h2 (Nat.add_le_add_left (Nat.le_max_right _ _) _)
termination_by sizeOf l

/-- Itemwise version of `renderDepth_le_shortBound` for dicts. -/
lemma renderDepthP_le_shortBound (p : PyValPairs) (d : Int) (hd : 0 ≤ d) :
    renderDepthP (povValueP p d) ≤ d.toNat + shortBoundP p := by
  cases p with
  | nil => simp [povValueP, renderDepthP]
  | cons k w t =>
    simp only [povValueP, renderDepthP, shortBoundP]
    have h1 := renderDepth_le_shortBound k d hd
    have h2 := renderDepth_le_shortBound w d hd
    have h3 := renderDepthP_le_shortBound t d hd
    refine max_le (max_le ?_ ?_) ?_
    · exact le_trans h1 (Nat.add_le_add_left (le_max_of_le_left (Nat.le_max_left _ _)) _)
    · exact le_trans h2 (Nat.add_le_add_left (le_max_of_le_left (Nat.le_max_right _ _)) _)
    · exact le_trans h3 (Nat.add_le_add_left (Nat.le_max_right _ _) _)
termination_by sizeOf p
end

/-- C5 counterexample: with the depth limit 0 the claim demands an
opaque placeholder for every compound value, yet on the nested
singleton `[[5]]` the `short_repr` escape bypasses the guard and the
printer descends two compound levels, rendering the inner list and
its element in full. -/
theorem povValue_descends_past_limit_counterex :
    povValue (PyVal.list (PyValList.cons
        (PyVal.list (PyValList.cons (PyVal.pyInt 5) PyValList.nil)) PyValList.nil)) 0 =
      Render.listR (RenderList.cons
        (Render.listR (RenderList.cons (Render.const "5") RenderList.nil))
        RenderList.nil) ∧
    renderDepth (povValue (PyVal.list (PyValList.cons
        (PyVal.list (PyValList.cons (PyVal.pyInt 5) PyValList.nil)) PyValList.nil)) 0) = 2 ∧
    0 < renderDepth (povValue (PyVal.list (PyValList.cons
        (PyVal.list (PyValList.cons (PyVal.pyInt 5) PyValList.nil)) PyValList.nil)) 0) :=
  ⟨rfl, rfl, by decide⟩

/-- C5 (amended): for every non-negative depth limit `d`, rendering
descends at most `d` compound levels plus the height of a
short-representation chain — short values (empty containers,
singleton chains of short components) are the only way past the
limit — and a compound value without a short representation reached
with the limit exhausted is rendered as the opaque placeholder, never
descended into. -/
theorem povValue_depth_bound_amended (v : PyVal) (d : Int) (hd : 0 ≤ d) :
    renderDepth (povValue v d) ≤ d.toNat + shortBound v ∧
    (isCompound v = true → shortRepr v = false →
      povValue v 0 = Render.instanceR (placeholderTy v)) := by
  refine ⟨renderDepth_le_shortBound v d hd, ?_⟩
  intro hc hs
  cases v with
  | pyNone => simp [isCompound] at hc
  | pyInt n => simp [isCompound] at hc
  | pyStr s => simp [isCompound] at hc
  | exc ty m => simp [povValue, placeholderTy]
  | list l =>
    have hl : shortReprL l = false := by simpa [shortRepr] using hs
    cases l with
    | nil => simp [shortReprL] at hl
    | cons x t => rw [povValue_list_cons]; simp [hl, placeholderTy]
  | dict p =>
    have hp : shortReprP p = false := by simpa [shortRepr] using hs
    cases p with
    | nil => simp [shortReprP] at hp
    | cons k w t => rw [povValue_dict_cons]; simp [hp, placeholderTy]

/-- Witness for the amended C5 theorem at the concrete inputs `3` with
limit 1 and `[1, 2]` with limit 0. -/
theorem povValue_depth_bound_amended_witness :
    renderDepth (povValue (PyVal.pyInt 3) 1) ≤ (1 : Int).toNat + shortBound (PyVal.pyInt 3) ∧
    povValue (PyVal.list (PyValList.cons (PyVal.pyInt 1)
        (PyValList.cons (PyVal.pyInt 2) PyValList.nil))) 0 = Render.instanceR "list" :=
  ⟨(povValue_depth_bound_amended (PyVal.pyInt 3) 1 (by decide)).1,
   (povValue_depth_bound_amended
      (PyVal.list (PyValList.cons (PyVal.pyInt 1)
        (PyValList.cons (PyVal.pyInt 2) PyValList.nil))) 0 (le_refl 0)).2 rfl rfl⟩

/-! ## C6 and C9: flush behaviour -/

/-- An empty previous stack shares no prefix with anything. -/
lemma commonPrefixLen_nil_left (s : List Frame) : commonPrefixLen [] s = 0 := by
  cases s <;> rfl

/-- A stack shares its full length with itself. -/
lemma commonPrefixLen_self (s : List Frame) : commonPrefixLen s s = s.length := by
  induction s with
  | nil => rfl
  | cons x t ih => simp [commonPrefixLen, ih]

/-- Splitting off the path lines distributes over appending output. -/
lemma pathPart_append (a b : List OutLine) :
    pathPart (a ++ b) = pathPart a ++ pathPart b := by
  simp [pathPart, List.filterMap_append]

/-- Path-tagged lines are all recovered by `pathPart`. -/
lemma pathPart_map_path (xs : List PathLine) : pathPart (xs.map OutLine.path) = xs := by
  induction xs with
  | nil => rfl
  | cons x t ih => simp [pathPart, List.filterMap_cons] at ih ⊢; exact ih

/-- Content lines contribute nothing to `pathPart`. -/
lemma pathPart_map_content (ys : List TraceLine) : pathPart (ys.map OutLine.content) = [] := by
  induction ys with
  | nil => rfl
  | cons y t ih => simp [pathPart, List.filterMap_cons, ih]

/-- Re-flushing an unchanged nonempty stack emits no stack lines at
all: the common prefix is the whole stack, so neither marker fires and
no frame lies past the prefix. -/
lemma stackDiffLines_self (s : List Frame) (hs : 0 < s.length) :
    stackDiffLines s s = [] := by
  simp [stackDiffLines, commonPrefixLen_self, hs]

/-- C6 counterexample: after a first flush renders the one-frame stack
in full, an immediately repeated flush of the same stack renders no
stack line whatsoever — no frames, but also no marker of any kind;
its whole output is the block's single content line.  The claim's
"renders only a divergence/no-change marker" is therefore false: no
marker line is produced. -/
theorem stack_diff_second_flush_counterex :
    pathPart (flushOne [] ⟨[⟨"a.py", 3, "main"⟩], [TraceLine.callOpen "f"]⟩).1 =
      [PathLine.newStack, PathLine.frameLine ⟨"a.py", 3, "main"⟩] ∧
    pathPart (flushOne (flushOne [] ⟨[⟨"a.py", 3, "main"⟩], [TraceLine.callOpen "f"]⟩).2
        ⟨[⟨"a.py", 3, "main"⟩], [TraceLine.callOpen "f"]⟩).1 = [] ∧
    (flushOne (flushOne [] ⟨[⟨"a.py", 3, "main"⟩], [TraceLine.callOpen "f"]⟩).2
        ⟨[⟨"a.py", 3, "main"⟩], [TraceLine.callOpen "f"]⟩).1 =
      [OutLine.content (TraceLine.callOpen "f")] := by
  refine ⟨by decide, by decide, by decide⟩

/-- C6 (amended): flushing a nonempty traced block twice from an
unchanged call stack renders the full captured stack (behind the
new-stack marker, nothing having been rendered before) on the first
flush, and on the second flush renders no stack output at all —
neither the stack frames nor any marker, only the block's own content
lines. -/
theorem stack_diff_idempotent_amended (s : List Frame) (l1 l2 : List TraceLine)
    (hs : 0 < s.length) (h1 : 0 < l1.length) :
    pathPart (flushOne [] ⟨s, l1⟩).1 = PathLine.newStack :: s.map PathLine.frameLine ∧
    pathPart (flushOne (flushOne [] ⟨s, l1⟩).2 ⟨s, l2⟩).1 = [] := by
  have h1e : l1.isEmpty = false := by
    cases l1 with
    | nil => simp at h1
    | cons a b => rfl
  have hflush1 : flushOne [] ⟨s, l1⟩ =
      ((stackDiffLines [] s).map OutLine.path ++ l1.map OutLine.content, s) := by
    simp [flushOne, h1e]
  constructor
  · rw [hflush1]
    rw [pathPart_append, pathPart_map_path, pathPart_map_content, List.append_nil]
    simp [stackDiffLines, commonPrefixLen_nil_left]
  · rw [hflush1]
    cases h2 : l2.isEmpty with
    | true => simp [flushOne, h2, pathPart]
    | false =>
      simp only [flushOne, h2, Bool.false_eq_true, if_false]
      rw [pathPart_append, pathPart_map_path, pathPart_map_content, List.append_nil]
      exact stackDiffLines_self s hs

/-- Witness for the amended C6 theorem at a concrete one-frame stack. -/
theorem stack_diff_idempotent_amended_witness :
    0 < ([⟨"a.py", 3, "main"⟩] : List Frame).length ∧
    0 < ([TraceLine.callOpen "f"] : List TraceLine).length ∧
    pathPart (flushOne [] ⟨[⟨"a.py", 3, "main"⟩], [TraceLine.callOpen "f"]⟩).1 =
      PathLine.newStack :: ([⟨"a.py", 3, "main"⟩] : List Frame).map PathLine.frameLine ∧
    pathPart (flushOne (flushOne [] ⟨[⟨"a.py", 3, "main"⟩], [TraceLine.callOpen "f"]⟩).2
        ⟨[⟨"a.py", 3, "main"⟩], [TraceLine.warnMsg "again"]⟩).1 = [] :=
  ⟨by decide, by decide,
   (stack_diff_idempotent_amended [⟨"a.py", 3, "main"⟩] [TraceLine.callOpen "f"]
      [TraceLine.warnMsg "again"] (by decide) (by decide)).1,
   (stack_diff_idempotent_amended [⟨"a.py", 3, "main"⟩] [TraceLine.callOpen "f"]
      [TraceLine.warnMsg "again"] (by decide) (by decide)).2⟩

/-- C9: a block that accumulated no lines is dropped silently by the
flush: it produces no output — no header, no stack frames, no lines —
it does not move the process-wide previous-stack marker, and removing
it from the flush queue leaves the entire flush output unchanged. -/
theorem empty_block_dropped_silently (prev : List Frame) (b : BlockEntry)
    (pre post : List BlockEntry) (h : b.lines = []) :
    flushOne prev b = ([], prev) ∧
    flushAll prev (pre ++ b :: post) = flushAll prev (pre ++ post) := by
  have hb : b.lines.isEmpty = true := by simp [h]
  refine ⟨by simp [flushOne, hb], ?_⟩
  induction pre generalizing prev with
  | nil => simp [flushAll, flushOne, hb]
  | cons x t ih => simp [flushAll, ih]

/-- Witness for C9 at a concrete queue holding one empty and one
nonempty block. -/
theorem empty_block_dropped_silently_witness :
    (⟨[⟨"a.py", 3, "main"⟩], []⟩ : BlockEntry).lines = [] ∧
    flushOne [] (⟨[⟨"a.py", 3, "main"⟩], []⟩ : BlockEntry) = ([], []) ∧
    flushAll [] ([⟨[⟨"b.py", 9, "g"⟩], [TraceLine.info "hi"]⟩] ++
        (⟨[⟨"a.py", 3, "main"⟩], []⟩ : BlockEntry) :: []) =
      flushAll [] ([⟨[⟨"b.py", 9, "g"⟩], [TraceLine.info "hi"]⟩] ++ []) :=
  ⟨rfl,
   (empty_block_dropped_silently [] ⟨[⟨"a.py", 3, "main"⟩], []⟩
      [⟨[⟨"b.py", 9, "g"⟩], [TraceLine.info "hi"]⟩] [] rfl).1,
   (empty_block_dropped_silently [] ⟨[⟨"a.py", 3, "main"⟩], []⟩
      [⟨[⟨"b.py", 9, "g"⟩], [TraceLine.info "hi"]⟩] [] rfl).2⟩

/-! ## C7: `view` renders evaluation failures inline -/

/-- C7: an expression whose evaluation raises is rendered, at its own
position, as a single failure line carrying the exception's type and
message, and `view` still renders every remaining argument — the
failure is consumed inside the loop, never propagated. -/
theorem view_failure_inline_continues (ev : String → Except PyExc PyVal)
    (title : Option String) (pre post : List ViewArg) (s : String) (e : PyExc)
    (h : ev s = Except.error e) :
    POV_view ev title (pre ++ ViewArg.exprA s :: post) =
      POV_view ev title pre ++
        TraceLine.badExpr s e.ty e.msg :: post.map (viewLine ev) := by
  simp [POV_view, viewLine, tryEvalView, viewName, h]

/-- Witness for C7: a failing middle expression between two literal
arguments. -/
theorem view_failure_inline_continues_witness :
    (fun (_ : String) =>
      (Except.error ⟨"ZeroDivisionError", "division by zero"⟩ : Except PyExc PyVal)) "1/0" =
      Except.error ⟨"ZeroDivisionError", "division by zero"⟩ ∧
    POV_view (fun _ => Except.error ⟨"ZeroDivisionError", "division by zero"⟩)
        Option.none
        ([ViewArg.valA (PyVal.pyInt 1)] ++ ViewArg.exprA "1/0" ::
          [ViewArg.valA (PyVal.pyInt 2)]) =
      POV_view (fun _ => Except.error ⟨"ZeroDivisionError", "division by zero"⟩)
          Option.none [ViewArg.valA (PyVal.pyInt 1)] ++
        TraceLine.badExpr "1/0" "ZeroDivisionError" "division by zero" ::
          [ViewArg.valA (PyVal.pyInt 2)].map
            (viewLine (fun _ => Except.error ⟨"ZeroDivisionError", "division by zero"⟩)) :=
  ⟨rfl,
   view_failure_inline_continues
     (fun _ => Except.error ⟨"ZeroDivisionError", "division by zero"⟩) Option.none
     [ViewArg.valA (PyVal.pyInt 1)] [ViewArg.valA (PyVal.pyInt 2)] "1/0"
     ⟨"ZeroDivisionError", "division by zero"⟩ rfl⟩

/-! ## C8: `check` with `exit_on_failure` -/

/-- The folded `all_true` flag is exactly: the flag it started from and
every argument evaluating (or casting) to a truthy value. -/
lemma checkStep_foldl_flag (ev : String → Except PyExc PyVal) (exprs : List ViewArg)
    (b : Bool) (lines : List TraceLine) :
    (exprs.foldl (checkStep ev) (b, lines)).1 = (b && exprs.all (checkTruthy ev)) := by
  induction exprs generalizing b lines with
  | nil => simp
  | cons a t ih =>
    cases a with
    | valA v =>
      cases hv : pyTruthy v with
      | true => simp [checkStep, hv, ih, checkTruthy]
      | false => simp [checkStep, hv, ih, checkTruthy]
    | exprA s =>
      cases hes : ev s with
      | ok v =>
        cases hv : pyTruthy v with
        | true => simp [checkStep, hes, hv, ih, checkTruthy]
        | false => simp [checkStep, hes, hv, ih, checkTruthy]
      | error e => simp [checkStep, hes, ih, checkTruthy]

/-- C8: with `exit_on_failure` set, `check` returns normally exactly
when every expression evaluates (or casts) to a truthy value, and
otherwise — some falsy value or some raising evaluation — it
terminates the process through `exit(1)`, a non-zero status. -/
theorem check_exit_on_failure_outcome (ev : String → Except PyExc PyVal)
    (exprs : List ViewArg) :
    (POV_check ev exprs true).2 =
      (if exprs.all (checkTruthy ev) then CheckOutcome.normal else CheckOutcome.exited 1) := by
  unfold POV_check
  have hflag := checkStep_foldl_flag ev exprs true [TraceLine.info "Assertions:"]
  cases hall : exprs.all (checkTruthy ev) with
  | true => simp [hflag, hall]
  | false => simp [hflag, hall]

/-! ## C10: proxy wrappers never nest -/

/-- C10: `sanitise` never returns a proxy and is idempotent; a proxy
built by `_POVObj.__init__` wraps a sanitised (hence unwrapped)
target; and `intercept` applied to an object free of nested wrappers
— in particular to an already wrapped object, which it merely renames
— never produces a wrapper around a wrapper. -/
theorem sanitise_no_nested_wrappers (x : PObj) (n : String) :
    isPovObj (sanitise x) = false ∧
    sanitise (sanitise x) = sanitise x ∧
    noNestedWrap (POVObj_init x n) = true ∧
    (noNestedWrap x = true → noNestedWrap (intercept x n) = true) := by
  refine ⟨isPovObj_sanitise x, sanitise_sanitise x, ?_, ?_⟩
  · simp [POVObj_init, noNestedWrap, isPovObj_sanitise]
  · intro h
    cases x with
    | base v => simp [intercept, isPovObj, POVObj_init, noNestedWrap, sanitise]
    | wrap t m =>
      simpa [intercept, isPovObj, pov_set_name, noNestedWrap] using
        (by simpa [noNestedWrap] using h : isPovObj t = false)

/-- Witness for C10: renaming an already wrapped object through
`intercept` keeps the single wrapping layer. -/
theorem sanitise_no_nested_wrappers_witness :
    noNestedWrap (PObj.wrap (PObj.base PyVal.pyNone) "a") = true ∧
    noNestedWrap (intercept (PObj.wrap (PObj.base PyVal.pyNone) "a") "b") = true :=
  ⟨rfl,
   (sanitise_no_nested_wrappers (PObj.wrap (PObj.base PyVal.pyNone) "a") "b").2.2.2 rfl⟩
